import Mathlib

/-!
Verification development for the Adaptive Routing & Learning subsystem
(`src/services/adaptiveCortex.ts` and `src/services/dynamicOrchestrator.ts`).

JavaScript numbers are modelled as exact rationals (`ℚ`); `Math.floor` as
`Int.floor`; `Date.now()` reads are passed in as explicit `now` parameters
(they never influence the verified properties); `Math.random()` is modelled
as an explicit stream `rand : ℕ → ℚ` together with the index of the next
draw, consumed in source order.  Code paths that throw a JavaScript
`TypeError` (reduce of an empty array, indexing `undefined`) are modelled
as `none` of an `Option` result.
-/

namespace GeminiNexus

/-- `AgentCapability` from `src/types.ts`, in declaration order
(`RESEARCH, ANALYSIS, CREATIVE, CODING, FAST_TASK`), which is the order
`Object.values(AgentCapability)` produces. -/
inductive AgentCapability
  | RESEARCH
  | ANALYSIS
  | CREATIVE
  | CODING
  | FAST_TASK
deriving DecidableEq

/-- `Object.values(AgentCapability)` — the enum members in source order. -/
def agentCapabilityValues : List AgentCapability :=
  [.RESEARCH, .ANALYSIS, .CREATIVE, .CODING, .FAST_TASK]

/-- Rendering of a capability value, used when the source interpolates the
enum string value into a message. -/
def capName : AgentCapability → String
  | .RESEARCH => "RESEARCH"
  | .ANALYSIS => "ANALYSIS"
  | .CREATIVE => "CREATIVE"
  | .CODING => "CODING"
  | .FAST_TASK => "FAST_TASK"

-- ===========================================================================
-- adaptiveCortex.ts : data model
-- ===========================================================================

/-- The `entropyWeights` record inside `CortexWeights`. -/
structure EntropyWeights where
  length : ℚ
  keyword : ℚ
  history : ℚ
  visual : ℚ
deriving DecidableEq

/-- `CortexWeights` (adaptiveCortex.ts).  The per-capability `Record`s are
modelled as total functions on the closed enum. -/
structure CortexWeights where
  entropyWeights : EntropyWeights
  budgetMultipliers : AgentCapability → ℚ
  temperatureSettings : AgentCapability → ℚ
  routingPreferences : AgentCapability → ℚ
  lastUpdated : ℚ
  updateCount : ℕ
  confidence : ℚ

/-- `Experience` (adaptiveCortex.ts). -/
structure Experience where
  taskEntropy : ℚ
  capability : AgentCapability
  promptLength : ℕ
  hasVisual : Bool
  historyLength : ℕ
  predictedBudget : ℚ
  predictedSuccess : ℚ
  actualBudget : ℚ
  actualSuccess : Bool
  actualQuality : ℚ
  actualLatency : ℚ
  timestamp : ℚ
  taskId : String

/-- The mutable state of an `AdaptiveCortex` instance: its weights and the
experience buffer. -/
structure AdaptiveCortex where
  weights : CortexWeights
  experienceBuffer : List Experience

/-- `maxBufferSize = 1000`. -/
def maxBufferSize : ℕ := 1000

/-- `updateFrequency = 100`. -/
def updateFrequency : ℕ := 100

/-- `learningRate = 0.05` (the AdaptiveCortex field). -/
def cortexLearningRate : ℚ := 0.05

/-- `clamp(value, min, max) = Math.max(min, Math.min(max, value))`. -/
def clampQ (value lo hi : ℚ) : ℚ := max lo (min hi value)

/-- The `defaults` object built by `initializeWeights` (timestamp read
modelled as 0; it never influences any verified property). -/
def defaultCortexWeights : CortexWeights where
  entropyWeights := { length := 0.35, keyword := 0.45, history := 0.15, visual := 0.05 }
  budgetMultipliers := fun c =>
    match c with
    | .FAST_TASK => 0.0
    | .RESEARCH => 1.2
    | .ANALYSIS => 1.5
    | .CODING => 2.0
    | .CREATIVE => 1.1
  temperatureSettings := fun c =>
    match c with
    | .FAST_TASK => 0.3
    | .RESEARCH => 0.7
    | .ANALYSIS => 0.5
    | .CODING => 0.4
    | .CREATIVE => 0.9
  routingPreferences := fun _ => 0.5
  lastUpdated := 0
  updateCount := 0
  confidence := 0.3

/-- `Partial<CortexWeights>`: each top-level field may be absent. -/
structure PartialCortexWeights where
  entropyWeights : Option EntropyWeights := none
  budgetMultipliers : Option (AgentCapability → ℚ) := none
  temperatureSettings : Option (AgentCapability → ℚ) := none
  routingPreferences : Option (AgentCapability → ℚ) := none
  lastUpdated : Option ℚ := none
  updateCount : Option ℕ := none
  confidence : Option ℚ := none

/-- `initializeWeights(custom)` = `{ ...defaults, ...custom }`: a present
top-level field of `custom` replaces the corresponding default field. -/
def initializeWeights (custom : PartialCortexWeights) : CortexWeights where
  entropyWeights := custom.entropyWeights.getD defaultCortexWeights.entropyWeights
  budgetMultipliers := custom.budgetMultipliers.getD defaultCortexWeights.budgetMultipliers
  temperatureSettings := custom.temperatureSettings.getD defaultCortexWeights.temperatureSettings
  routingPreferences := custom.routingPreferences.getD defaultCortexWeights.routingPreferences
  lastUpdated := custom.lastUpdated.getD defaultCortexWeights.lastUpdated
  updateCount := custom.updateCount.getD defaultCortexWeights.updateCount
  confidence := custom.confidence.getD defaultCortexWeights.confidence

/-- `new AdaptiveCortex(initialWeights?)`: weights from `initializeWeights`,
empty experience buffer. -/
def mkAdaptiveCortex (custom : PartialCortexWeights) : AdaptiveCortex where
  weights := initializeWeights custom
  experienceBuffer := []

/-- A fresh default-constructed cortex (`new AdaptiveCortex()`). -/
def freshCortex : AdaptiveCortex := mkAdaptiveCortex {}

-- ===========================================================================
-- adaptiveCortex.ts : weight optimization
-- ===========================================================================

/-- `calculateEntropyWithWeights(exp, weights)`. -/
def calculateEntropyWithWeights (e : Experience) (w : EntropyWeights) : ℚ :=
  let lengthScore := min ((e.promptLength : ℚ) / 500) 1.0
  let keywordScore : ℚ := 0.5
  let historyScore := min ((e.historyLength : ℚ) / 10) 1.0
  let visualScore : ℚ := if e.hasVisual then 1.0 else 0.0
  lengthScore * w.length + keywordScore * w.keyword +
    historyScore * w.history + visualScore * w.visual

/-- Sum of the four entropy weights. -/
def ewSum (w : EntropyWeights) : ℚ := w.length + w.keyword + w.history + w.visual

/-- `normalizeEntropyWeights()`: divide each weight by the sum when the sum
is positive. -/
def normalizeEntropyWeights (w : EntropyWeights) : EntropyWeights :=
  let s := ewSum w
  if 0 < s then
    { length := w.length / s, keyword := w.keyword / s,
      history := w.history / s, visual := w.visual / s }
  else w

/-- The loop body of `optimizeEntropyWeights`: add one experience's
error×feature contribution to the four gradient accumulators. -/
def entropyGradStep (ew : EntropyWeights) (acc : ℚ × ℚ × ℚ × ℚ) (e : Experience) :
    ℚ × ℚ × ℚ × ℚ :=
  let predictedEntropy := calculateEntropyWithWeights e ew
  let error := (if e.actualSuccess then (1 : ℚ) else 0) - predictedEntropy
  let lengthFeature := min ((e.promptLength : ℚ) / 500) 1.0
  let keywordFeature : ℚ := 0.5
  let historyFeature := min ((e.historyLength : ℚ) / 10) 1.0
  let visualFeature : ℚ := if e.hasVisual then 1.0 else 0.0
  (acc.1 + error * lengthFeature, acc.2.1 + error * keywordFeature,
   acc.2.2.1 + error * historyFeature, acc.2.2.2 + error * visualFeature)

/-- `optimizeEntropyWeights()`: accumulate error×feature gradients over the
buffer, average, additively update with the learning rate, normalize to sum
1, then clamp each weight to its documented range. -/
def optimizeEntropyWeights (w : CortexWeights) (buffer : List Experience) : CortexWeights :=
  let grads := buffer.foldl (entropyGradStep w.entropyWeights)
    ((0 : ℚ), (0 : ℚ), (0 : ℚ), (0 : ℚ))
  let n : ℚ := buffer.length
  let updated : EntropyWeights :=
    { length := w.entropyWeights.length + cortexLearningRate * (grads.1 / n)
      keyword := w.entropyWeights.keyword + cortexLearningRate * (grads.2.1 / n)
      history := w.entropyWeights.history + cortexLearningRate * (grads.2.2.1 / n)
      visual := w.entropyWeights.visual + cortexLearningRate * (grads.2.2.2 / n) }
  let normalized := normalizeEntropyWeights updated
  { w with entropyWeights :=
      { length := clampQ normalized.length 0.1 0.6
        keyword := clampQ normalized.keyword 0.2 0.6
        history := clampQ normalized.history 0.05 0.4
        visual := clampQ normalized.visual 0.0 0.3 } }

/-- `optimizeBudgetMultipliers()`.  The source groups the buffer by
capability with a `Map` and updates each present capability's multiplier;
the per-capability updates are independent, so the grouping is modelled
pointwise: a capability with no experiences in the buffer is untouched. -/
def optimizeBudgetMultipliers (w : CortexWeights) (buffer : List Experience) : CortexWeights :=
  { w with budgetMultipliers := fun capability =>
      let experiences := buffer.filter (fun e => e.capability == capability)
      if experiences.isEmpty then w.budgetMultipliers capability
      else
        let len : ℚ := experiences.length
        let avgSuccess := ((experiences.filter (fun e => e.actualSuccess)).length : ℚ) / len
        let avgQuality := (experiences.foldl (fun s e => s + e.actualQuality) 0) / len
        let avgEfficiency :=
          (experiences.foldl (fun s e => s + e.actualQuality / max e.actualBudget 1) 0) / len
        let currentMultiplier := w.budgetMultipliers capability
        let next :=
          if avgSuccess < 0.7 then currentMultiplier * 1.1
          else if avgQuality > 0.85 ∧ avgEfficiency > 0.001 then currentMultiplier * 0.95
          else currentMultiplier
        clampQ next 0.5 3.0 }

/-- `optimizeRoutingPreferences()`: per present capability, smooth the
preference toward the observed success rate with factor 0.2. -/
def optimizeRoutingPreferences (w : CortexWeights) (buffer : List Experience) : CortexWeights :=
  { w with routingPreferences := fun capability =>
      let experiences := buffer.filter (fun e => e.capability == capability)
      if experiences.isEmpty then w.routingPreferences capability
      else
        let successRate :=
          ((experiences.filter (fun e => e.actualSuccess)).length : ℚ) / (experiences.length : ℚ)
        let alpha : ℚ := 0.2
        w.routingPreferences capability * (1 - alpha) + successRate * alpha }

/-- `updateWeights()`: no-op below 10 buffered experiences; otherwise run the
three optimisation steps, bump the metadata, and clear the buffer. -/
def updateWeights (s : AdaptiveCortex) (now : ℚ) : AdaptiveCortex :=
  if s.experienceBuffer.length < 10 then s
  else
    let w1 := optimizeEntropyWeights s.weights s.experienceBuffer
    let w2 := optimizeBudgetMultipliers w1 s.experienceBuffer
    let w3 := optimizeRoutingPreferences w2 s.experienceBuffer
    { weights :=
        { w3 with
          lastUpdated := now
          updateCount := w3.updateCount + 1
          confidence := min (w3.confidence + 0.1) 1.0 }
      experienceBuffer := [] }

/-- The FIFO trim inside `recordExperience`: after the push, drop the oldest
entry (`shift()`) when the buffer exceeds `maxBufferSize`. -/
def trimBuffer (buffer : List Experience) : List Experience :=
  if buffer.length > maxBufferSize then buffer.tail else buffer

/-- `recordExperience(experience)`: push, FIFO-trim past the cap, then run a
re-optimization pass when the buffer has reached `updateFrequency`. -/
def recordExperience (s : AdaptiveCortex) (e : Experience) (now : ℚ) : AdaptiveCortex :=
  let buffer := trimBuffer (s.experienceBuffer ++ [e])
  let pushed : AdaptiveCortex := { s with experienceBuffer := buffer }
  if buffer.length ≥ updateFrequency then updateWeights pushed now else pushed

/-- Replay a sequence of `recordExperience` calls (clock reads modelled
as 0). -/
def replayExperiences (s : AdaptiveCortex) (es : List Experience) : AdaptiveCortex :=
  es.foldl (fun st e => recordExperience st e 0) s

-- ===========================================================================
-- adaptiveCortex.ts : prediction and persistence
-- ===========================================================================

/-- The fixed `buffers` table inside `getMaxBuffer`. -/
def getMaxBuffer : AgentCapability → ℚ
  | .FAST_TASK => 0
  | .RESEARCH => 4000
  | .ANALYSIS => 8000
  | .CODING => 16000
  | .CREATIVE => 8000

/-- `predictBudget(entropy, capability, hasVisual)` =
`Math.min(Math.floor(100 + entropy*maxBuffer*multiplier*visualMult), 32000)`. -/
def predictBudget (s : AdaptiveCortex) (entropy : ℚ) (capability : AgentCapability)
    (hasVisual : Bool) : ℤ :=
  let BASE_BUDGET : ℚ := 100
  let MAX_BUFFER := getMaxBuffer capability
  let multiplier := s.weights.budgetMultipliers capability
  let visualMultiplier : ℚ := if hasVisual then 1.5 else 1.0
  let budget := BASE_BUDGET + entropy * MAX_BUFFER * multiplier * visualMultiplier
  min ⌊budget⌋ 32000

/-- `predictSuccess(entropy, capability)` =
`Math.max(0.1, Math.min(1.0, routingPreference - entropy*0.2))`. -/
def predictSuccess (s : AdaptiveCortex) (entropy : ℚ) (capability : AgentCapability) : ℚ :=
  let baseSuccess := s.weights.routingPreferences capability
  let entropyPenalty := entropy * 0.2
  max 0.1 (min 1.0 (baseSuccess - entropyPenalty))

/-- `getTemperature(capability)`. -/
def getTemperature (s : AdaptiveCortex) (capability : AgentCapability) : ℚ :=
  s.weights.temperatureSettings capability

/-- `exportWeights()`: a copy of the weight store. -/
def exportWeights (s : AdaptiveCortex) : CortexWeights := s.weights

/-- `importWeights(weights)`: fully replace the weight store. -/
def importWeights (s : AdaptiveCortex) (w : CortexWeights) : AdaptiveCortex :=
  { s with weights := w }

-- ===========================================================================
-- dynamicOrchestrator.ts : data model
-- ===========================================================================

/-- `ExecutionContext` (dynamicOrchestrator.ts).  `completedTasks` carries no
verified content and is modelled as a counter of completed tasks. -/
structure ExecutionContext where
  prompt : String
  entropy : ℚ
  historyLength : ℕ
  completedTasks : ℕ
  availableAgents : List AgentCapability
  budget : ℚ
deriving DecidableEq

/-- `AgentSelection`. -/
structure AgentSelection where
  capability : AgentCapability
  role : String
  confidence : ℚ
  estimatedCost : ℚ
  reasoning : String
deriving DecidableEq

/-- `RoutingPolicy` utility weights. -/
structure UtilityWeights where
  historicalSuccess : ℚ
  capabilityMatch : ℚ
  costEfficiency : ℚ
deriving DecidableEq

/-- `RoutingPolicy`. -/
structure RoutingPolicy where
  explorationRate : ℚ
  utilityWeights : UtilityWeights
  learningRate : ℚ
deriving DecidableEq

/-- `RoutePerformance`. -/
structure RoutePerformance where
  capability : AgentCapability
  successRate : ℚ
  avgTokens : ℚ
  avgLatency : ℚ
  sampleCount : ℕ
  lastUpdated : ℚ
deriving DecidableEq

/-- The outcome record reported back per completed stage. -/
structure ExecResult where
  success : Bool
  tokensUsed : ℚ
  latencyMs : ℚ
  quality : ℚ
deriving DecidableEq

/-- `ExecutionRecord` pushed onto the execution log. -/
structure ExecutionRecord where
  timestamp : ℚ
  selection : AgentSelection
  result : ExecResult
  contextEntropy : ℚ
deriving DecidableEq

/-- `ExecutionCondition` (the `type` string plus optional threshold). -/
structure ExecutionCondition where
  condType : String
  threshold : ℚ
deriving DecidableEq

/-- `ExecutionStage`. -/
structure ExecutionStage where
  stageId : ℕ
  agent : AgentSelection
  dependencies : List String
  condition : ExecutionCondition
deriving DecidableEq

/-- `BranchPoint` (declared in the source; never populated). -/
structure BranchPoint where
  stageId : ℕ
  condition : String
  trueBranch : ℕ
  falseBranch : ℕ
deriving DecidableEq

/-- `FallbackStrategy` (trigger flattened: type string and retry cap). -/
structure FallbackStrategy where
  stageId : ℕ
  primaryAgent : AgentCapability
  fallbackAgent : AgentCapability
  triggerType : String
  maxRetries : ℕ
deriving DecidableEq

/-- `DynamicExecutionPlan`. -/
structure DynamicExecutionPlan where
  stages : List ExecutionStage
  branchPoints : List BranchPoint
  fallbackStrategies : List FallbackStrategy
  estimatedCost : ℚ
deriving DecidableEq

/-- The mutable state of a `DynamicOrchestrator` instance.  The
`routingHistory` map is a partial function on the closed enum. -/
structure DynamicOrchestrator where
  routingHistory : AgentCapability → Option RoutePerformance
  policy : RoutingPolicy
  executionLog : List ExecutionRecord

/-- The constructor's default policy (ε 0.1, weights 0.4/0.4/0.2, α 0.2). -/
def defaultPolicy : RoutingPolicy where
  explorationRate := 0.1
  utilityWeights := { historicalSuccess := 0.4, capabilityMatch := 0.4, costEfficiency := 0.2 }
  learningRate := 0.2

/-- `initializeRouting()`: one neutral record per capability
(success 0.5, tokens 1000, latency 5000, count 0; clock read modelled 0). -/
def initializeRouting : AgentCapability → Option RoutePerformance :=
  fun cap => some
    { capability := cap, successRate := 0.5, avgTokens := 1000, avgLatency := 5000,
      sampleCount := 0, lastUpdated := 0 }

/-- `new DynamicOrchestrator()` with the default policy. -/
def defaultOrchestrator : DynamicOrchestrator where
  routingHistory := initializeRouting
  policy := defaultPolicy
  executionLog := []

-- ===========================================================================
-- dynamicOrchestrator.ts : helpers
-- ===========================================================================

/-- `getEligibleCapabilities(context)`: keep the capabilities whose learned
average token cost fits the remaining budget (unknown capability passes). -/
def getEligibleCapabilities (o : DynamicOrchestrator) (context : ExecutionContext) :
    List AgentCapability :=
  context.availableAgents.filter fun cap =>
    match o.routingHistory cap with
    | none => true
    | some perf => decide (perf.avgTokens < context.budget)

/-- `computeCapabilityMatch(capability, context)`: the entropy-banded
heuristic. -/
def computeCapabilityMatch (capability : AgentCapability) (context : ExecutionContext) : ℚ :=
  if context.entropy > 0.7 then
    if capability = .ANALYSIS ∨ capability = .CODING then 1.0 else 0.3
  else if context.entropy > 0.4 then
    if capability = .RESEARCH then 0.9
    else if capability = .ANALYSIS then 0.7
    else 0.5
  else if capability = .FAST_TASK then 1.0 else 0.6

/-- `calculateUtility(capability, context)`: neutral 0.5 for an unknown
capability, otherwise the weighted combination of the confidence-blended
success rate, the capability match and the cost efficiency. -/
def calculateUtility (o : DynamicOrchestrator) (capability : AgentCapability)
    (context : ExecutionContext) : ℚ :=
  match o.routingHistory capability with
  | none => 0.5
  | some perf =>
    let weights := o.policy.utilityWeights
    let confidenceFactor := min ((perf.sampleCount : ℚ) / 20) 1.0
    let historicalScore := perf.successRate * confidenceFactor + 0.5 * (1 - confidenceFactor)
    let matchScore := computeCapabilityMatch capability context
    let efficiency := 1 / (1 + perf.avgTokens / 1000)
    historicalScore * weights.historicalSuccess +
      matchScore * weights.capabilityMatch +
      efficiency * weights.costEfficiency

/-- `estimateCost(capability, context)`: the learned average token cost, or
the static defaults table when the capability has no record. -/
def estimateCost (o : DynamicOrchestrator) (capability : AgentCapability) : ℚ :=
  match o.routingHistory capability with
  | some perf => perf.avgTokens
  | none =>
    match capability with
    | .FAST_TASK => 100
    | .RESEARCH => 2000
    | .ANALYSIS => 4000
    | .CODING => 8000
    | .CREATIVE => 3000

/-- The three role-name options per capability (`generateRoleName`). -/
def roleOptions : AgentCapability → List String
  | .FAST_TASK => ["Quick Processor", "Rapid Executor", "Fast Handler"]
  | .RESEARCH => ["Research Analyst", "Information Gatherer", "Data Collector"]
  | .ANALYSIS => ["Deep Analyzer", "Strategic Thinker", "Critical Evaluator"]
  | .CODING => ["Software Engineer", "Code Architect", "Technical Developer"]
  | .CREATIVE => ["Creative Writer", "Content Designer", "Creative Strategist"]

/-- JavaScript array indexing with an integer index: out-of-range (negative
included) yields `undefined`, modelled `none`. -/
def jsIndex {α : Type} (l : List α) (i : ℤ) : Option α :=
  if i < 0 then none else l.get? i.toNat

/-- `generateRoleName(capability, context)` with its random draw explicit.
An out-of-range draw produces `undefined` for the role string, modelled as
the empty string (the object construction itself does not throw). -/
def generateRoleName (capability : AgentCapability) (r : ℚ) : String :=
  let options := roleOptions capability
  (jsIndex options ⌊r * (options.length : ℚ)⌋).getD ""

-- ===========================================================================
-- dynamicOrchestrator.ts : selection
-- ===========================================================================

/-- `explore(candidates, context)`: uniform random pick.  On an empty
candidate list the indexed capability is `undefined` and the subsequent
`roles[undefined][...]` access throws, modelled `none`. -/
def explore (o : DynamicOrchestrator) (candidates : List AgentCapability)
    (rIdx rRole : ℚ) : Option AgentSelection :=
  match jsIndex candidates ⌊rIdx * (candidates.length : ℚ)⌋ with
  | none => none
  | some capability => some
    { capability := capability
      role := generateRoleName capability rRole
      confidence := 0.5
      estimatedCost := estimateCost o capability
      reasoning := "Exploration: Testing " ++ capName capability ++ " capability" }

/-- `exploit(candidates, context)`: score every candidate, take the maximal
utility (`reduce` keeps the earlier element on ties).  `reduce` of an empty
array with no initial value throws, modelled `none`; so does the non-null
lookup when the winner has no performance record. -/
def exploit (o : DynamicOrchestrator) (candidates : List AgentCapability)
    (context : ExecutionContext) (rRole : ℚ) : Option AgentSelection :=
  let scores := candidates.map fun capability =>
    (capability, calculateUtility o capability context)
  match scores with
  | [] => none
  | first :: rest =>
    let best := rest.foldl (fun a b => if a.2 > b.2 then a else b) first
    match o.routingHistory best.1 with
    | none => none
    | some perf => some
      { capability := best.1
        role := generateRoleName best.1 rRole
        confidence := perf.successRate
        estimatedCost := estimateCost o best.1
        reasoning := "Exploitation: " ++ capName best.1 ++ " has " ++
          toString (perf.successRate * 100) ++ "% success rate" }

/-- `selectNextAgent(context)`.  The random draws are consumed in source
order: first the ε-greedy test, then the draws inside the taken branch
(`explore` draws the candidate index and then the role name; `exploit`
draws only the role name).  Returns the selection (`none` = thrown
exception) and the index of the next unconsumed draw. -/
def selectNextAgent (o : DynamicOrchestrator) (context : ExecutionContext)
    (rand : ℕ → ℚ) (k : ℕ) : Option AgentSelection × ℕ :=
  let candidates := getEligibleCapabilities o context
  if rand k < o.policy.explorationRate then
    (explore o candidates (rand (k + 1)) (rand (k + 2)), k + 3)
  else
    (exploit o candidates context (rand (k + 1)), k + 2)

-- ===========================================================================
-- dynamicOrchestrator.ts : learning update
-- ===========================================================================

/-- `updateFromExecution(selection, result)`: EMA-update the selection's
performance record, bump its sample count, stamp the clock, and append one
execution record; a selection whose capability has no record is ignored. -/
def updateFromExecution (o : DynamicOrchestrator) (selection : AgentSelection)
    (result : ExecResult) (now : ℚ) : DynamicOrchestrator :=
  match o.routingHistory selection.capability with
  | none => o
  | some perf =>
    let alpha := o.policy.learningRate
    let updated : RoutePerformance :=
      { perf with
        successRate := perf.successRate * (1 - alpha) +
          (if result.success then (1 : ℚ) else 0) * alpha
        avgTokens := perf.avgTokens * (1 - alpha) + result.tokensUsed * alpha
        avgLatency := perf.avgLatency * (1 - alpha) + result.latencyMs * alpha
        sampleCount := perf.sampleCount + 1
        lastUpdated := now }
    { o with
      routingHistory := fun c =>
        if c = selection.capability then some updated else o.routingHistory c
      executionLog := o.executionLog ++
        [{ timestamp := now, selection := selection, result := result, contextEntropy := 0 }] }

/-- `n`-fold iteration of `updateFromExecution` with a fixed selection and
result (clock reads modelled as 0). -/
def iterUpdate (o : DynamicOrchestrator) (selection : AgentSelection)
    (result : ExecResult) : ℕ → DynamicOrchestrator
  | 0 => o
  | n + 1 => updateFromExecution (iterUpdate o selection result n) selection result 0

-- ===========================================================================
-- dynamicOrchestrator.ts : planning
-- ===========================================================================

/-- Substring test used by `calculatePromptEntropy` (`String.includes`). -/
def beginsWith : List Char → List Char → Bool
  | [], _ => true
  | _ :: _, [] => false
  | a :: as, b :: bs => a == b && beginsWith as bs

/-- Whether `needle` occurs inside `hay`. -/
def containsSub (needle : List Char) : List Char → Bool
  | [] => needle.isEmpty
  | c :: rest => beginsWith needle (c :: rest) || containsSub needle rest

/-- `hay.includes(needle)`. -/
def strIncludes (hay needle : String) : Bool := containsSub needle.data hay.data

/-- `s.toLowerCase()` (character-wise lowering; the prompts at issue are
ASCII). -/
def strToLower (s : String) : String := ⟨s.data.map Char.toLower⟩

/-- `calculatePromptEntropy(prompt)`: length score plus 0.15 per matched
keyword, capped at 1. -/
def calculatePromptEntropy (prompt : String) : ℚ :=
  let length := min ((prompt.length : ℚ) / 500) 1.0
  let keywords := ["analyze", "compare", "code", "research", "evaluate"]
  let keywordScore :=
    ((keywords.filter fun k => strIncludes (strToLower prompt) k).length : ℚ) * 0.15
  min (length * 0.5 + keywordScore) 1.0

/-- `identifyDependencies(stages)`: the immediately preceding stage id. -/
def identifyDependencies (stages : List ExecutionStage) : List String :=
  match stages.getLast? with
  | none => []
  | some st => [toString st.stageId]

/-- `createExecutionCondition(context)`: always-true condition. -/
def createExecutionCondition : ExecutionCondition := { condType := "ALWAYS", threshold := 0 }

/-- `shouldTerminate(context, plan)`: cumulative cost at 90% of the current
context budget, or five stages (a hardcoded constant, not `maxAgents`), or
low entropy with at least one stage. -/
def shouldTerminate (context : ExecutionContext) (plan : DynamicExecutionPlan) : Bool :=
  if plan.estimatedCost ≥ context.budget * 0.9 then true
  else if plan.stages.length ≥ 5 then true
  else if context.entropy < 0.3 ∧ plan.stages.length ≥ 1 then true
  else false

/-- `projectNextContext(current, selection)`: decrement the budget by the
selection's estimated cost and bump the history length. -/
def projectNextContext (current : ExecutionContext) (selection : AgentSelection) :
    ExecutionContext :=
  { current with
    budget := current.budget - selection.estimatedCost
    historyLength := current.historyLength + 1 }

/-- The fixed fallback table of `selectFallback`. -/
def selectFallback : AgentCapability → AgentCapability
  | .FAST_TASK => .RESEARCH
  | .RESEARCH => .ANALYSIS
  | .ANALYSIS => .CODING
  | .CODING => .ANALYSIS
  | .CREATIVE => .ANALYSIS

/-- `generateFallbacks(plan)`: one deterministic fallback per stage, retry
cap 2. -/
def generateFallbacks (plan : DynamicExecutionPlan) : List FallbackStrategy :=
  plan.stages.map fun stage =>
    { stageId := stage.stageId
      primaryAgent := stage.agent.capability
      fallbackAgent := selectFallback stage.agent.capability
      triggerType := "FAILURE"
      maxRetries := 2 }

/-- The initial planning context built at the top of `planExecution`. -/
def initialContext (prompt : String) (budget : ℚ) : ExecutionContext where
  prompt := prompt
  entropy := calculatePromptEntropy prompt
  historyLength := 0
  completedTasks := 0
  availableAgents := agentCapabilityValues
  budget := budget

/-- The stage-building loop of `planExecution`: select, append the stage,
accumulate the cost, break on `shouldTerminate`, otherwise project the next
context.  A thrown selection aborts the whole call (`none`). -/
def planLoop (o : DynamicOrchestrator) (rand : ℕ → ℚ) :
    ℕ → ℕ → ℕ → ExecutionContext → DynamicExecutionPlan →
    Option (DynamicExecutionPlan × ℕ)
  | 0, _, k, _, plan => some (plan, k)
  | fuel + 1, stage, k, context, plan =>
    match selectNextAgent o context rand k with
    | (none, _) => none
    | (some selection, k2) =>
      let plan2 : DynamicExecutionPlan :=
        { plan with
          stages := plan.stages ++
            [{ stageId := stage, agent := selection,
               dependencies := identifyDependencies plan.stages,
               condition := createExecutionCondition }]
          estimatedCost := plan.estimatedCost + selection.estimatedCost }
      if shouldTerminate context plan2 then some (plan2, k2)
      else planLoop o rand fuel (stage + 1) k2 (projectNextContext context selection) plan2

/-- The empty plan `planExecution` starts from. -/
def emptyPlan : DynamicExecutionPlan :=
  { stages := [], branchPoints := [], fallbackStrategies := [], estimatedCost := 0 }

/-- `planExecution(prompt, maxAgents, budget)`: run the stage loop from an
empty plan, then attach the fallback strategies. -/
def planExecution (o : DynamicOrchestrator) (prompt : String) (maxAgents : ℕ)
    (budget : ℚ) (rand : ℕ → ℚ) (k : ℕ) : Option DynamicExecutionPlan :=
  let context := initialContext prompt budget
  match planLoop o rand maxAgents 0 k context emptyPlan with
  | none => none
  | some (plan, _) => some { plan with fallbackStrategies := generateFallbacks plan }

/-- A constant random stream (every draw ½): the ε-greedy test always takes
the exploit branch under the default exploration rate. -/
def halfStream : ℕ → ℚ := fun _ => 1 / 2

-- ===========================================================================
-- Shared concrete data and helper lemmas
-- ===========================================================================

/-- A concrete experience record: an unsuccessful zero-length, non-visual
task. -/
def sampleExperience : Experience where
  taskEntropy := 0
  capability := .RESEARCH
  promptLength := 0
  hasVisual := false
  historyLength := 0
  predictedBudget := 0
  predictedSuccess := 0
  actualBudget := 100
  actualSuccess := false
  actualQuality := 0
  actualLatency := 0
  timestamp := 0
  taskId := "t"

/-- The documented clamp ranges of the four entropy weights. -/
def entropyWeightsInRange (w : EntropyWeights) : Prop :=
  0.1 ≤ w.length ∧ w.length ≤ 0.6 ∧ 0.2 ≤ w.keyword ∧ w.keyword ≤ 0.6 ∧
    0.05 ≤ w.history ∧ w.history ≤ 0.4 ∧ 0.0 ≤ w.visual ∧ w.visual ≤ 0.3

theorem le_clampQ (v lo hi : ℚ) : lo ≤ clampQ v lo hi := le_max_left _ _

theorem clampQ_le (v lo hi : ℚ) (h : lo ≤ hi) : clampQ v lo hi ≤ hi :=
  max_le h (min_le_left _ _)

/-- Clamping each entropy weight to its documented range lands in that
range. -/
theorem entropyWeightsInRange_clamped (n : EntropyWeights) :
    entropyWeightsInRange ⟨clampQ n.length 0.1 0.6, clampQ n.keyword 0.2 0.6,
      clampQ n.history 0.05 0.4, clampQ n.visual 0.0 0.3⟩ :=
  ⟨le_clampQ _ _ _, clampQ_le _ _ _ (by norm_num), le_clampQ _ _ _,
    clampQ_le _ _ _ (by norm_num), le_clampQ _ _ _, clampQ_le _ _ _ (by norm_num),
    le_clampQ _ _ _, clampQ_le _ _ _ (by norm_num)⟩

-- ===========================================================================
-- Claims
-- ===========================================================================

/-- C1.  The spec asserts `predictBudget(*, FAST_TASK, *) = 0`; the code
returns the base budget 100 there: `getMaxBuffer(FAST_TASK) = 0` kills the
entropy term but the base 100 survives the floor and the 32000 cap.  This
counterexample evaluates the claimed zero case on a fresh cortex at
entropy ½. -/
theorem predictBudget_fastTask_counterexample :
    predictBudget freshCortex (1 / 2) AgentCapability.FAST_TASK false = 100 ∧
      predictBudget freshCortex (1 / 2) AgentCapability.FAST_TASK false ≠ 0 := by
  have h : predictBudget freshCortex (1 / 2) AgentCapability.FAST_TASK false = 100 := by
    norm_num [predictBudget, getMaxBuffer, freshCortex, mkAdaptiveCortex, initializeWeights,
      defaultCortexWeights, min_def]
  exact ⟨h, by rw [h]; norm_num⟩

/-- C1 (amended).  For every cortex state, every entropy and every visual
flag, `predictBudget` on `FAST_TASK` returns the base budget 100 (never 0),
and at entropy 0 every capability returns the base budget 100. -/
theorem predictBudget_base_cases (s : AdaptiveCortex) (entropy : ℚ) (hasVisual : Bool)
    (capability : AgentCapability) :
    predictBudget s entropy AgentCapability.FAST_TASK hasVisual = 100 ∧
      predictBudget s 0 capability hasVisual = 100 := by
  constructor
  · have h : entropy * getMaxBuffer AgentCapability.FAST_TASK *
        s.weights.budgetMultipliers AgentCapability.FAST_TASK *
        (if hasVisual then (1.5 : ℚ) else 1.0) = 0 := by
      norm_num [getMaxBuffer]
    rw [predictBudget]
    rw [h]
    norm_num
  · have h : (0 : ℚ) * getMaxBuffer capability * s.weights.budgetMultipliers capability *
        (if hasVisual then (1.5 : ℚ) else 1.0) = 0 := by
      norm_num
    rw [predictBudget]
    rw [h]
    norm_num

/-- C6.  `predictSuccess` equals the routing preference minus 0.2·entropy
clamped to [0.1, 1.0], and its output lies in [0.1, 1.0], for every state,
every entropy in [0, 1] and every capability. -/
theorem predictSuccess_clamped (s : AdaptiveCortex) (entropy : ℚ)
    (capability : AgentCapability) (h0 : 0 ≤ entropy) (h1 : entropy ≤ 1) :
    predictSuccess s entropy capability =
      clampQ (s.weights.routingPreferences capability - entropy * 0.2) 0.1 1.0 ∧
      0.1 ≤ predictSuccess s entropy capability ∧
      predictSuccess s entropy capability ≤ 1 := by
  refine ⟨rfl, le_max_left _ _, ?_⟩
  exact max_le (by norm_num) (le_trans (min_le_left _ _) (by norm_num))

/-- C6 witness: the clamp characterisation at the fresh cortex, RESEARCH,
entropy ½. -/
theorem predictSuccess_clamped_witness :
    ((0 : ℚ) ≤ 1 / 2 ∧ (1 / 2 : ℚ) ≤ 1) ∧
      (predictSuccess freshCortex (1 / 2) AgentCapability.RESEARCH =
        clampQ (freshCortex.weights.routingPreferences AgentCapability.RESEARCH -
          (1 / 2) * 0.2) 0.1 1.0 ∧
      0.1 ≤ predictSuccess freshCortex (1 / 2) AgentCapability.RESEARCH ∧
      predictSuccess freshCortex (1 / 2) AgentCapability.RESEARCH ≤ 1) :=
  ⟨⟨by norm_num, by norm_num⟩,
    predictSuccess_clamped freshCortex (1 / 2) AgentCapability.RESEARCH
      (by norm_num) (by norm_num)⟩

/-- C9.  Exporting the weights of any cortex state and importing the
snapshot into a fresh cortex reproduces the original `predictBudget` and
`predictSuccess` outputs on every input. -/
theorem exportImport_roundtrip (s : AdaptiveCortex) (entropy : ℚ)
    (capability : AgentCapability) (hasVisual : Bool) :
    predictBudget (importWeights freshCortex (exportWeights s)) entropy capability hasVisual =
      predictBudget s entropy capability hasVisual ∧
    predictSuccess (importWeights freshCortex (exportWeights s)) entropy capability =
      predictSuccess s entropy capability :=
  ⟨rfl, rfl⟩

/-- C3 (the code, not the claim).  With every capability filtered out by the
budget check (budget 500 below every learned average cost 1000),
`selectNextAgent` does not signal a distinct no-eligible-capability
condition: `exploit` reduces an empty array with no initial value and
`explore` indexes `undefined`, so the call throws (modelled `none`), and
`planExecution` propagates the exception instead of returning the prefix of
stages built so far. -/
theorem emptyCandidates_crash :
    (selectNextAgent defaultOrchestrator (initialContext "x" 500) halfStream 0).1 = none ∧
      planExecution defaultOrchestrator "x" 5 500 halfStream 0 = none := by
  constructor
  · norm_num [selectNextAgent, getEligibleCapabilities, exploit, explore, defaultOrchestrator,
      initializeRouting, defaultPolicy, agentCapabilityValues, initialContext, halfStream,
      List.filter]
  · norm_num [planExecution, planLoop, selectNextAgent, getEligibleCapabilities, exploit,
      explore, defaultOrchestrator, initializeRouting, defaultPolicy, agentCapabilityValues,
      initialContext, halfStream, List.filter]

/-- C10.  `updateFromExecution` with a known capability changes only that
capability's performance record and appends exactly one execution record,
leaving the policy and every other capability's record unchanged; with an
unknown capability the state is returned unchanged. -/
theorem updateFromExecution_frame (o : DynamicOrchestrator) (selection : AgentSelection)
    (result : ExecResult) (now : ℚ) :
    (o.routingHistory selection.capability = none →
      updateFromExecution o selection result now = o) ∧
    (∀ perf, o.routingHistory selection.capability = some perf →
      (updateFromExecution o selection result now).policy = o.policy ∧
      (∀ c, c ≠ selection.capability →
        (updateFromExecution o selection result now).routingHistory c = o.routingHistory c) ∧
      (updateFromExecution o selection result now).executionLog =
        o.executionLog ++ [ExecutionRecord.mk now selection result 0] ∧
      (updateFromExecution o selection result now).routingHistory selection.capability =
        some { perf with
          successRate := perf.successRate * (1 - o.policy.learningRate) +
            (if result.success then (1 : ℚ) else 0) * o.policy.learningRate
          avgTokens := perf.avgTokens * (1 - o.policy.learningRate) +
            result.tokensUsed * o.policy.learningRate
          avgLatency := perf.avgLatency * (1 - o.policy.learningRate) +
            result.latencyMs * o.policy.learningRate
          sampleCount := perf.sampleCount + 1
          lastUpdated := now }) := by
  constructor
  · intro h
    simp [updateFromExecution, h]
  · intro perf h
    refine ⟨?_, ?_, ?_, ?_⟩
    · simp [updateFromExecution, h]
    · intro c hc
      simp [updateFromExecution, h, hc]
    · simp [updateFromExecution, h]
    · simp [updateFromExecution, h]

/-- Concrete inputs for the C10 witness. -/
def selC10 : AgentSelection where
  capability := .CODING
  role := "Software Engineer"
  confidence := 0.8
  estimatedCost := 5000
  reasoning := "Test"

/-- Concrete outcome for the C10 witness. -/
def resC10 : ExecResult where
  success := true
  tokensUsed := 4500
  latencyMs := 3000
  quality := 0.9

/-- The CODING record of a fresh orchestrator. -/
def perfC10 : RoutePerformance where
  capability := .CODING
  successRate := 0.5
  avgTokens := 1000
  avgLatency := 5000
  sampleCount := 0
  lastUpdated := 0

/-- C10 witness: the frame property instantiated on a fresh orchestrator
with a CODING selection. -/
theorem updateFromExecution_frame_witness :
    defaultOrchestrator.routingHistory selC10.capability = some perfC10 ∧
      ((updateFromExecution defaultOrchestrator selC10 resC10 0).policy =
        defaultOrchestrator.policy ∧
      (∀ c, c ≠ selC10.capability →
        (updateFromExecution defaultOrchestrator selC10 resC10 0).routingHistory c =
          defaultOrchestrator.routingHistory c) ∧
      (updateFromExecution defaultOrchestrator selC10 resC10 0).executionLog =
        defaultOrchestrator.executionLog ++ [ExecutionRecord.mk 0 selC10 resC10 0] ∧
      (updateFromExecution defaultOrchestrator selC10 resC10 0).routingHistory
          selC10.capability =
        some { perfC10 with
          successRate := perfC10.successRate * (1 - defaultOrchestrator.policy.learningRate) +
            (if resC10.success then (1 : ℚ) else 0) * defaultOrchestrator.policy.learningRate
          avgTokens := perfC10.avgTokens * (1 - defaultOrchestrator.policy.learningRate) +
            resC10.tokensUsed * defaultOrchestrator.policy.learningRate
          avgLatency := perfC10.avgLatency * (1 - defaultOrchestrator.policy.learningRate) +
            resC10.latencyMs * defaultOrchestrator.policy.learningRate
          sampleCount := perfC10.sampleCount + 1
          lastUpdated := 0 }) :=
  ⟨rfl, (updateFromExecution_frame defaultOrchestrator selC10 resC10 0).2 perfC10 rfl⟩

/-- After one `recordExperience` call from a buffer of at most 99 entries
the buffer again has at most 99 entries: the push adds one, and reaching
100 triggers the re-optimization pass, which clears the buffer. -/
theorem recordExperience_length_le (s : AdaptiveCortex) (e : Experience) (now : ℚ)
    (h : s.experienceBuffer.length ≤ 99) :
    (recordExperience s e now).experienceBuffer.length ≤ 99 := by
  have hlen : (s.experienceBuffer ++ [e]).length = s.experienceBuffer.length + 1 := by simp
  have htrim : trimBuffer (s.experienceBuffer ++ [e]) = s.experienceBuffer ++ [e] := by
    rw [trimBuffer, if_neg]
    rw [hlen]
    simp only [maxBufferSize]
    omega
  simp only [recordExperience, htrim, updateWeights]
  split_ifs with h1 h2 <;> simp_all [updateFrequency] <;> omega

/-- Replaying any experience sequence preserves the ≤ 99 buffer bound. -/
theorem replay_length_le (es : List Experience) :
    ∀ s : AdaptiveCortex, s.experienceBuffer.length ≤ 99 →
      (replayExperiences s es).experienceBuffer.length ≤ 99 := by
  induction es with
  | nil => intro s h; exact h
  | cons e rest ih =>
    intro s h
    exact ih _ (recordExperience_length_le s e 0 h)

/-- C8.  The experience buffer never exceeds 1000 entries over any sequence
of `recordExperience` calls on a fresh cortex (it in fact stays at or below
99, because every 100th record triggers the buffer-clearing pass), and the
FIFO trim evicts exactly the oldest entry when an append would exceed the
cap. -/
theorem experienceBuffer_bounded_fifo :
    (∀ es : List Experience,
      (replayExperiences freshCortex es).experienceBuffer.length ≤ 1000) ∧
    (∀ (buffer : List Experience) (e : Experience), buffer.length = 1000 →
      trimBuffer (buffer ++ [e]) = buffer.tail ++ [e]) := by
  constructor
  · intro es
    have h := replay_length_le es freshCortex (by simp [freshCortex, mkAdaptiveCortex])
    exact le_trans h (by norm_num)
  · intro buffer e h
    cases buffer with
    | nil => simp at h
    | cons b bs =>
      have hlen : ((b :: bs) ++ [e]).length = 1001 := by
        simp at h ⊢
        omega
      rw [trimBuffer, if_pos]
      · simp
      · rw [hlen]
        norm_num [maxBufferSize]

/-- C8 witness: the bound on a singleton replay and the FIFO eviction on a
full 1000-entry buffer. -/
theorem experienceBuffer_bounded_fifo_witness :
    (List.replicate 1000 sampleExperience).length = 1000 ∧
      ((replayExperiences freshCortex [sampleExperience]).experienceBuffer.length ≤ 1000 ∧
      trimBuffer (List.replicate 1000 sampleExperience ++ [sampleExperience]) =
        (List.replicate 1000 sampleExperience).tail ++ [sampleExperience]) :=
  ⟨by rw [List.length_replicate], experienceBuffer_bounded_fifo.1 [sampleExperience],
    experienceBuffer_bounded_fifo.2 _ _ (by rw [List.length_replicate])⟩

-- ===========================================================================
-- C2 : the entropy-weight sum after a re-optimization pass
-- ===========================================================================

/-- A cortex constructed with entropy weights (0.45, 0.2, 0.05, 0.3): they
sum to 1 and each lies inside its documented clamp range. -/
def cortexC2 : AdaptiveCortex :=
  mkAdaptiveCortex { entropyWeights := some ⟨0.45, 0.2, 0.05, 0.3⟩ }

/-- The state after 100 `recordExperience` calls on `cortexC2` with the same
unsuccessful experience: the 100th call triggers the re-optimization pass. -/
def afterC2 : AdaptiveCortex :=
  replayExperiences cortexC2 (List.replicate 100 sampleExperience)

/-- Below the update threshold, `recordExperience` just appends. -/
theorem record_push (w : CortexWeights) (buf : List Experience) (e : Experience)
    (h : buf.length ≤ 98) :
    recordExperience (AdaptiveCortex.mk w buf) e 0 = AdaptiveCortex.mk w (buf ++ [e]) := by
  have htrim : trimBuffer (buf ++ [e]) = buf ++ [e] := by
    rw [trimBuffer, if_neg]
    simp only [List.length_append, List.length_cons, List.length_nil, maxBufferSize]
    omega
  simp only [recordExperience, htrim]
  rw [if_neg]
  simp only [List.length_append, List.length_cons, List.length_nil, updateFrequency]
  omega

/-- Replaying up to the update threshold just accumulates the buffer. -/
theorem replay_accum (e : Experience) :
    ∀ (k : ℕ) (w : CortexWeights) (buf : List Experience), buf.length + k ≤ 99 →
      replayExperiences (AdaptiveCortex.mk w buf) (List.replicate k e) =
        AdaptiveCortex.mk w (buf ++ List.replicate k e) := by
  intro k
  induction k with
  | zero => intro w buf h; simp [replayExperiences]
  | succ n ih =>
    intro w buf h
    rw [List.replicate_succ]
    simp only [replayExperiences, List.foldl_cons]
    rw [record_push w buf e (by omega)]
    have h2 := ih w (buf ++ [e]) (by simp; omega)
    simp only [replayExperiences] at h2
    rw [h2]
    simp [List.replicate_succ]

/-- The 100th record on `cortexC2` runs the re-optimization pass on the
accumulated buffer. -/
theorem afterC2_eq :
    afterC2 = updateWeights
      (AdaptiveCortex.mk cortexC2.weights (List.replicate 100 sampleExperience)) 0 := by
  have h0 : cortexC2 = AdaptiveCortex.mk cortexC2.weights [] := rfl
  have hsplit : List.replicate 100 sampleExperience =
      List.replicate 99 sampleExperience ++ [sampleExperience] :=
    List.replicate_succ' 99 sampleExperience
  show replayExperiences cortexC2 (List.replicate 100 sampleExperience) = _
  rw [h0, hsplit, replayExperiences, List.foldl_append]
  have h99 := replay_accum sampleExperience 99 cortexC2.weights [] (by simp)
  simp only [replayExperiences] at h99
  rw [h99]
  simp only [List.foldl_cons, List.foldl_nil, List.nil_append]
  have hlen : (List.replicate 99 sampleExperience ++ [sampleExperience]).length = 100 := by
    simp
  have htrim : trimBuffer (List.replicate 99 sampleExperience ++ [sampleExperience]) =
      List.replicate 99 sampleExperience ++ [sampleExperience] := by
    rw [trimBuffer, if_neg]
    rw [hlen]
    norm_num [maxBufferSize]
  have hcond : (List.replicate 99 sampleExperience ++ [sampleExperience]).length ≥
      updateFrequency := by
    rw [hlen]
    norm_num [updateFrequency]
  simp only [recordExperience, htrim]
  rw [if_pos hcond]

/-- Folding an additive step over `n` copies of one experience adds `n`
times its contribution. -/
theorem foldl_add4_replicate (e : Experience)
    (f : (ℚ × ℚ × ℚ × ℚ) → Experience → (ℚ × ℚ × ℚ × ℚ)) (a b c d : ℚ)
    (hf : ∀ acc : ℚ × ℚ × ℚ × ℚ,
      f acc e = (acc.1 + a, acc.2.1 + b, acc.2.2.1 + c, acc.2.2.2 + d)) :
    ∀ (n : ℕ) (acc : ℚ × ℚ × ℚ × ℚ), List.foldl f acc (List.replicate n e) =
      (acc.1 + n * a, acc.2.1 + n * b, acc.2.2.1 + n * c, acc.2.2.2 + n * d) := by
  intro n
  induction n with
  | zero => intro acc; simp
  | succ m ih =>
    intro acc
    rw [List.replicate_succ, List.foldl_cons, hf, ih]
    simp only [Prod.mk.injEq]
    refine ⟨?_, ?_, ?_, ?_⟩ <;> push_cast <;> ring

/-- The entropy-weight step of the pass on the `cortexC2` buffer: the
gradient moves only the keyword weight, normalization restores sum 1, and
the final clamps pull keyword up to 0.2 and visual down to 0.3. -/
theorem optimizeEntropyWeightsC2 :
    (optimizeEntropyWeights cortexC2.weights
        (List.replicate 100 sampleExperience)).entropyWeights =
      ⟨60 / 133, 1 / 5, 20 / 399, 3 / 10⟩ := by
  have hf : ∀ acc : ℚ × ℚ × ℚ × ℚ,
      entropyGradStep cortexC2.weights.entropyWeights acc sampleExperience =
        (acc.1 + 0, acc.2.1 + -(1 / 20), acc.2.2.1 + 0, acc.2.2.2 + 0) := by
    intro acc
    norm_num [entropyGradStep, calculateEntropyWithWeights, sampleExperience, cortexC2,
      mkAdaptiveCortex, initializeWeights, defaultCortexWeights, min_def]
  rw [optimizeEntropyWeights]
  rw [foldl_add4_replicate sampleExperience _ 0 (-(1 / 20)) 0 0 hf 100 ((0 : ℚ), (0 : ℚ), (0 : ℚ), (0 : ℚ))]
  norm_num [normalizeEntropyWeights, ewSum, clampQ, min_def, max_def, cortexLearningRate,
    cortexC2, mkAdaptiveCortex, initializeWeights, defaultCortexWeights]

/-- The pass on `cortexC2` yields the computed entropy weights and bumps the
update counter. -/
theorem afterC2_weights :
    afterC2.weights.entropyWeights = ⟨60 / 133, 1 / 5, 20 / 399, 3 / 10⟩ ∧
      afterC2.weights.updateCount = 1 := by
  rw [afterC2_eq, updateWeights, if_neg (by simp)]
  constructor
  · simp only [optimizeRoutingPreferences, optimizeBudgetMultipliers]
    exact optimizeEntropyWeightsC2
  · simp only [optimizeRoutingPreferences, optimizeBudgetMultipliers, optimizeEntropyWeights]
    rfl

/-- C2 counterexample.  Starting from constructor-accepted entropy weights
that sum to 1 and each lie in their documented clamp range, 100 recorded
failures trigger one re-optimization pass after which the four entropy
weights sum to 799/798 — off 1.0 by 1/798 ≈ 1.25·10⁻³, far beyond the
1·10⁻⁹ tolerance: the source clamps after it normalizes. -/
theorem entropyWeights_sum_counterexample :
    entropyWeightsInRange cortexC2.weights.entropyWeights ∧
      ewSum cortexC2.weights.entropyWeights = 1 ∧
      afterC2.weights.updateCount = 1 ∧
      ewSum afterC2.weights.entropyWeights = 799 / 798 ∧
      ¬(|ewSum afterC2.weights.entropyWeights - 1| ≤ 1 / 1000000000) := by
  obtain ⟨hw, hc⟩ := afterC2_weights
  have hrange : entropyWeightsInRange cortexC2.weights.entropyWeights := by
    norm_num [entropyWeightsInRange, cortexC2, mkAdaptiveCortex, initializeWeights,
      defaultCortexWeights]
  have hsum : ewSum cortexC2.weights.entropyWeights = 1 := by
    norm_num [ewSum, cortexC2, mkAdaptiveCortex, initializeWeights, defaultCortexWeights]
  have hafter : ewSum afterC2.weights.entropyWeights = 799 / 798 := by
    rw [hw]
    norm_num [ewSum]
  refine ⟨hrange, hsum, hc, hafter, ?_⟩
  rw [hafter]
  rw [show (799 : ℚ) / 798 - 1 = 1 / 798 by norm_num]
  rw [abs_of_pos (by norm_num)]
  norm_num

/-- C2 (amended).  What the pass does guarantee: after every
re-optimization pass each entropy weight lies in its documented clamp range
([0.1,0.6], [0.2,0.6], [0.05,0.4], [0,0.3]), and the normalization step by
itself restores sum 1 whenever the pre-normalization sum is positive; the
subsequent clamping may move the post-pass sum away from 1. -/
theorem entropyWeights_pass_ranges :
    (∀ (s : AdaptiveCortex) (now : ℚ), 10 ≤ s.experienceBuffer.length →
      entropyWeightsInRange (updateWeights s now).weights.entropyWeights) ∧
    (∀ w : EntropyWeights, 0 < ewSum w → ewSum (normalizeEntropyWeights w) = 1) := by
  constructor
  · intro s now h
    rw [updateWeights, if_neg (by omega)]
    simp only [optimizeRoutingPreferences, optimizeBudgetMultipliers, optimizeEntropyWeights]
    exact entropyWeightsInRange_clamped _
  · intro w hw
    rw [normalizeEntropyWeights]
    rw [if_pos hw]
    simp only [ewSum] at hw ⊢
    rw [div_add_div_same, div_add_div_same, div_add_div_same]
    exact div_self (ne_of_gt hw)

/-- Concrete cortex with ten buffered experiences for the C2 witness. -/
def cortexC2small : AdaptiveCortex :=
  AdaptiveCortex.mk freshCortex.weights (List.replicate 10 sampleExperience)

/-- C2 amended-claim witness: the clamp ranges after a pass over ten
buffered experiences, and the normalization identity at weights
(1, 1, 1, 1). -/
theorem entropyWeights_pass_ranges_witness :
    (10 ≤ cortexC2small.experienceBuffer.length ∧
        (0 : ℚ) < ewSum (EntropyWeights.mk 1 1 1 1)) ∧
      entropyWeightsInRange (updateWeights cortexC2small 0).weights.entropyWeights ∧
      ewSum (normalizeEntropyWeights (EntropyWeights.mk 1 1 1 1)) = 1 :=
  ⟨⟨by simp [cortexC2small], by norm_num [ewSum]⟩,
    entropyWeights_pass_ranges.1 cortexC2small 0 (by simp [cortexC2small]),
    entropyWeights_pass_ranges.2 (EntropyWeights.mk 1 1 1 1) (by norm_num [ewSum])⟩

-- ===========================================================================
-- C5 : the exploitation scenario
-- ===========================================================================

/-- The C5 orchestrator: exploration rate 0, ANALYSIS at successRate 0.9
with 50 samples, every other capability at its neutral defaults
(successRate 0.5, sampleCount 0, avgTokens 1000). -/
def orchC5 : DynamicOrchestrator where
  routingHistory := fun c =>
    if c = .ANALYSIS then
      some { capability := .ANALYSIS, successRate := 0.9, avgTokens := 1000,
             avgLatency := 5000, sampleCount := 50, lastUpdated := 0 }
    else initializeRouting c
  policy := { defaultPolicy with explorationRate := 0 }
  executionLog := []

/-- C5.  With exploration off, ANALYSIS at 0.9/50, the others neutral, a
context of entropy 0.8 with all capabilities available and budget above
every learned average cost (1000), `selectNextAgent` picks ANALYSIS. -/
theorem selectNextAgent_analysis_scenario (context : ExecutionContext) (rand : ℕ → ℚ)
    (k : ℕ) (hent : context.entropy = 0.8)
    (hav : context.availableAgents = agentCapabilityValues)
    (hb : 1000 < context.budget) (hr : 0 ≤ rand k) :
    ∃ sel, (selectNextAgent orchC5 context rand k).1 = some sel ∧
      sel.capability = AgentCapability.ANALYSIS := by
  have hcand : getEligibleCapabilities orchC5 context = agentCapabilityValues := by
    simp [getEligibleCapabilities, hav, agentCapabilityValues, orchC5, initializeRouting, hb]
  have heps : orchC5.policy.explorationRate = 0 := rfl
  have hexp : ¬(rand k < orchC5.policy.explorationRate) := by
    rw [heps]
    exact not_lt.mpr hr
  have huR : calculateUtility orchC5 .RESEARCH context = 21 / 50 := by
    simp only [calculateUtility]
    rw [show orchC5.routingHistory AgentCapability.RESEARCH =
        some (RoutePerformance.mk AgentCapability.RESEARCH 0.5 1000 5000 0 0) from rfl]
    norm_num [computeCapabilityMatch, hent, min_def, orchC5, defaultPolicy]
    rw [if_neg (by decide : ¬(AgentCapability.RESEARCH = AgentCapability.ANALYSIS ∨
      AgentCapability.RESEARCH = AgentCapability.CODING))]
    norm_num
  have huA : calculateUtility orchC5 .ANALYSIS context = 43 / 50 := by
    simp only [calculateUtility]
    rw [show orchC5.routingHistory AgentCapability.ANALYSIS =
        some (RoutePerformance.mk AgentCapability.ANALYSIS 0.9 1000 5000 50 0) from rfl]
    norm_num [computeCapabilityMatch, hent, min_def, orchC5, defaultPolicy]
  have huC : calculateUtility orchC5 .CREATIVE context = 21 / 50 := by
    simp only [calculateUtility]
    rw [show orchC5.routingHistory AgentCapability.CREATIVE =
        some (RoutePerformance.mk AgentCapability.CREATIVE 0.5 1000 5000 0 0) from rfl]
    norm_num [computeCapabilityMatch, hent, min_def, orchC5, defaultPolicy]
    rw [if_neg (by decide : ¬(AgentCapability.CREATIVE = AgentCapability.ANALYSIS ∨
      AgentCapability.CREATIVE = AgentCapability.CODING))]
    norm_num
  have huD : calculateUtility orchC5 .CODING context = 7 / 10 := by
    simp only [calculateUtility]
    rw [show orchC5.routingHistory AgentCapability.CODING =
        some (RoutePerformance.mk AgentCapability.CODING 0.5 1000 5000 0 0) from rfl]
    norm_num [computeCapabilityMatch, hent, min_def, orchC5, defaultPolicy]
  have huF : calculateUtility orchC5 .FAST_TASK context = 21 / 50 := by
    simp only [calculateUtility]
    rw [show orchC5.routingHistory AgentCapability.FAST_TASK =
        some (RoutePerformance.mk AgentCapability.FAST_TASK 0.5 1000 5000 0 0) from rfl]
    norm_num [computeCapabilityMatch, hent, min_def, orchC5, defaultPolicy]
    rw [if_neg (by decide : ¬(AgentCapability.FAST_TASK = AgentCapability.ANALYSIS ∨
      AgentCapability.FAST_TASK = AgentCapability.CODING))]
    norm_num
  have hscores : agentCapabilityValues.map
      (fun capability => (capability, calculateUtility orchC5 capability context)) =
      [(.RESEARCH, 21 / 50), (.ANALYSIS, 43 / 50), (.CREATIVE, 21 / 50),
        (.CODING, 7 / 10), (.FAST_TASK, 21 / 50)] := by
    simp [agentCapabilityValues, huR, huA, huC, huD, huF]
  simp only [selectNextAgent]
  rw [hcand, if_neg hexp]
  simp only [exploit, hscores]
  norm_num
  rw [show orchC5.routingHistory AgentCapability.ANALYSIS =
      some (RoutePerformance.mk AgentCapability.ANALYSIS 0.9 1000 5000 50 0) from rfl]
  exact ⟨_, rfl, rfl⟩

/-- Concrete context for the C5 witness. -/
def ctxC5 : ExecutionContext where
  prompt := "p"
  entropy := 0.8
  historyLength := 0
  completedTasks := 0
  availableAgents := agentCapabilityValues
  budget := 10000

/-- C5 witness: the scenario instantiated on a concrete context and the
constant ½ random stream. -/
theorem selectNextAgent_analysis_scenario_witness :
    (ctxC5.entropy = 0.8 ∧ ctxC5.availableAgents = agentCapabilityValues ∧
        (1000 : ℚ) < ctxC5.budget ∧ (0 : ℚ) ≤ halfStream 0) ∧
      ∃ sel, (selectNextAgent orchC5 ctxC5 halfStream 0).1 = some sel ∧
        sel.capability = AgentCapability.ANALYSIS :=
  ⟨⟨rfl, rfl, by norm_num [ctxC5], by norm_num [halfStream]⟩,
    selectNextAgent_analysis_scenario ctxC5 halfStream 0 rfl rfl (by norm_num [ctxC5])
      (by norm_num [halfStream])⟩

-- ===========================================================================
-- C7 : successRate monotone toward 1 under repeated successes
-- ===========================================================================

/-- The tracked success rate of a capability (0 when it has no record). -/
def srAt (o : DynamicOrchestrator) (c : AgentCapability) : ℚ :=
  ((o.routingHistory c).map RoutePerformance.successRate).getD 0

/-- `updateFromExecution` never changes the policy. -/
theorem updateFromExecution_policy (o : DynamicOrchestrator) (selection : AgentSelection)
    (result : ExecResult) (now : ℚ) :
    (updateFromExecution o selection result now).policy = o.policy := by
  rcases h : o.routingHistory selection.capability with _ | perf <;>
    simp [updateFromExecution, h]

/-- Iterated updates keep the policy. -/
theorem iterUpdate_policy (o : DynamicOrchestrator) (sel : AgentSelection)
    (res : ExecResult) : ∀ n, (iterUpdate o sel res n).policy = o.policy := by
  intro n
  induction n with
  | zero => rfl
  | succ m ih =>
    rw [iterUpdate, updateFromExecution_policy]
    exact ih

/-- Closed form of the EMA recursion: after `n` successful updates the
tracked success rate is `1 - (1-α)^n (1 - sr₀)`. -/
theorem iterUpdate_successRate (o : DynamicOrchestrator) (sel : AgentSelection)
    (res : ExecResult) (perf : RoutePerformance)
    (hperf : o.routingHistory sel.capability = some perf) (hres : res.success = true) :
    ∀ n, ∃ p, (iterUpdate o sel res n).routingHistory sel.capability = some p ∧
      p.successRate = 1 - (1 - o.policy.learningRate) ^ n * (1 - perf.successRate) := by
  intro n
  induction n with
  | zero => exact ⟨perf, hperf, by ring⟩
  | succ m ih =>
    obtain ⟨p, hp, hps⟩ := ih
    have hpol := iterUpdate_policy o sel res m
    have hstep : (iterUpdate o sel res (m + 1)).routingHistory sel.capability =
        some { p with
          successRate := p.successRate * (1 - o.policy.learningRate) +
            1 * o.policy.learningRate
          avgTokens := p.avgTokens * (1 - o.policy.learningRate) +
            res.tokensUsed * o.policy.learningRate
          avgLatency := p.avgLatency * (1 - o.policy.learningRate) +
            res.latencyMs * o.policy.learningRate
          sampleCount := p.sampleCount + 1
          lastUpdated := 0 } := by
      simp only [iterUpdate, updateFromExecution, hp, hpol, hres]
      simp
    refine ⟨_, hstep, ?_⟩
    show p.successRate * (1 - o.policy.learningRate) + 1 * o.policy.learningRate = _
    rw [hps]
    ring

/-- C7.  With a fixed learning rate strictly between 0 and 1 and a tracked
record starting at or below 1, repeated successful `updateFromExecution`
calls make the capability's success rate strictly increase while it is
below 1, never exceed 1, and approach 1 in the limit. -/
theorem successRate_monotone_to_one (o : DynamicOrchestrator) (sel : AgentSelection)
    (res : ExecResult) (perf : RoutePerformance)
    (hperf : o.routingHistory sel.capability = some perf) (hres : res.success = true)
    (h0 : 0 < o.policy.learningRate) (h1 : o.policy.learningRate < 1)
    (hsr : perf.successRate ≤ 1) :
    (∀ n, srAt (iterUpdate o sel res n) sel.capability < 1 →
      srAt (iterUpdate o sel res n) sel.capability <
        srAt (iterUpdate o sel res (n + 1)) sel.capability) ∧
    (∀ n, srAt (iterUpdate o sel res n) sel.capability ≤ 1) ∧
    (∀ ε : ℚ, 0 < ε → ∃ N, ∀ n, N ≤ n →
      1 - srAt (iterUpdate o sel res n) sel.capability < ε) := by
  have hq0 : 0 ≤ 1 - o.policy.learningRate := by linarith
  have hq1 : 1 - o.policy.learningRate < 1 := by linarith
  have hd0 : 0 ≤ 1 - perf.successRate := by linarith
  have key : ∀ n, srAt (iterUpdate o sel res n) sel.capability =
      1 - (1 - o.policy.learningRate) ^ n * (1 - perf.successRate) := by
    intro n
    obtain ⟨p, hp, hps⟩ := iterUpdate_successRate o sel res perf hperf hres n
    rw [srAt, hp]
    simp [hps]
  refine ⟨?_, ?_, ?_⟩
  · intro n hlt
    rw [key n] at hlt ⊢
    rw [key (n + 1)]
    have hqd : 0 < (1 - o.policy.learningRate) ^ n * (1 - perf.successRate) := by linarith
    have hmono : (1 - o.policy.learningRate) ^ (n + 1) * (1 - perf.successRate) <
        (1 - o.policy.learningRate) ^ n * (1 - perf.successRate) := by
      calc (1 - o.policy.learningRate) ^ (n + 1) * (1 - perf.successRate)
          = ((1 - o.policy.learningRate) ^ n * (1 - perf.successRate)) *
              (1 - o.policy.learningRate) := by ring
        _ < ((1 - o.policy.learningRate) ^ n * (1 - perf.successRate)) * 1 :=
            mul_lt_mul_of_pos_left hq1 hqd
        _ = (1 - o.policy.learningRate) ^ n * (1 - perf.successRate) := by ring
    linarith
  · intro n
    rw [key n]
    have h2 : 0 ≤ (1 - o.policy.learningRate) ^ n * (1 - perf.successRate) :=
      mul_nonneg (pow_nonneg hq0 n) hd0
    linarith
  · intro ε hε
    rcases eq_or_lt_of_le hd0 with hd | hd
    · refine ⟨0, fun n _ => ?_⟩
      rw [key n, ← hd]
      simpa using hε
    · obtain ⟨N, hN⟩ := exists_pow_lt_of_lt_one (div_pos hε hd) hq1
      refine ⟨N, fun n hn => ?_⟩
      rw [key n]
      have h2 : (1 - o.policy.learningRate) ^ n ≤ (1 - o.policy.learningRate) ^ N :=
        pow_le_pow_of_le_one hq0 (by linarith) hn
      have h3 : (1 - o.policy.learningRate) ^ n * (1 - perf.successRate) ≤
          (1 - o.policy.learningRate) ^ N * (1 - perf.successRate) :=
        mul_le_mul_of_nonneg_right h2 hd0
      have h4 : (1 - o.policy.learningRate) ^ N * (1 - perf.successRate) <
          (ε / (1 - perf.successRate)) * (1 - perf.successRate) :=
        mul_lt_mul_of_pos_right hN hd
      rw [div_mul_cancel₀ ε (ne_of_gt hd)] at h4
      linarith

/-- C7 witness: the monotone convergence statement instantiated on a fresh
orchestrator (α = 0.2) with repeated CODING successes. -/
theorem successRate_monotone_to_one_witness :
    (defaultOrchestrator.routingHistory selC10.capability = some perfC10 ∧
      resC10.success = true ∧ 0 < defaultOrchestrator.policy.learningRate ∧
      defaultOrchestrator.policy.learningRate < 1 ∧ perfC10.successRate ≤ 1) ∧
    ((∀ n, srAt (iterUpdate defaultOrchestrator selC10 resC10 n) selC10.capability < 1 →
      srAt (iterUpdate defaultOrchestrator selC10 resC10 n) selC10.capability <
        srAt (iterUpdate defaultOrchestrator selC10 resC10 (n + 1)) selC10.capability) ∧
    (∀ n, srAt (iterUpdate defaultOrchestrator selC10 resC10 n) selC10.capability ≤ 1) ∧
    (∀ ε : ℚ, 0 < ε → ∃ N, ∀ n, N ≤ n →
      1 - srAt (iterUpdate defaultOrchestrator selC10 resC10 n) selC10.capability < ε)) :=
  ⟨⟨rfl, rfl, by norm_num [defaultOrchestrator, defaultPolicy],
      by norm_num [defaultOrchestrator, defaultPolicy], by norm_num [perfC10]⟩,
    successRate_monotone_to_one defaultOrchestrator selC10 resC10 perfC10 rfl rfl
      (by norm_num [defaultOrchestrator, defaultPolicy])
      (by norm_num [defaultOrchestrator, defaultPolicy]) (by norm_num [perfC10])⟩

-- ===========================================================================
-- C4 : plan-construction termination
-- ===========================================================================

/-- The prompt entropy of "analyze compare": two keywords hit, fifteen
characters. -/
theorem calcEntropy_analyzeCompare : calculatePromptEntropy "analyze compare" = 63 / 200 := by
  have hkw : (List.filter (fun k => strIncludes (strToLower "analyze compare") k)
      ["analyze", "compare", "code", "research", "evaluate"]).length = 2 := by decide
  rw [calculatePromptEntropy]
  rw [hkw]
  norm_num [String.length, min_def]

/-- C4 counterexample.  Two runs on a fresh orchestrator (all draws ½, so
every selection exploits and costs the learned 1000) refute the claimed
stop condition.  With budget 3000 and maxAgents 7 the loop stops after 2
stages — cumulative cost 2000 has reached 90% of the *decremented* context
budget (0.9·2000 = 1800) although none of the claimed conditions holds
(2000 < 0.9·3000, 2 < 7, entropy 0.315 ≥ 0.3).  With budget 1000000 and
maxAgents 7 the loop stops at the hardcoded 5 stages, not at maxAgents. -/
theorem planExecution_stop_counterexample :
    (planExecution defaultOrchestrator "analyze compare" 7 3000 halfStream 0).map
        (fun p => (p.stages.length, p.estimatedCost)) = some (2, 2000) ∧
      (planExecution defaultOrchestrator "analyze compare" 7 1000000 halfStream 0).map
        (fun p => (p.stages.length, p.estimatedCost)) = some (5, 5000) ∧
      calculatePromptEntropy "analyze compare" = 0.315 ∧
      ¬((2000 : ℚ) ≥ 0.9 * 3000) ∧ (2 : ℕ) ≠ 7 ∧ (5 : ℕ) ≠ 7 ∧
      ¬((0.315 : ℚ) < 0.3) ∧ (5000 : ℚ) < 0.9 * 1000000 := by
  refine ⟨?_, ?_, by rw [calcEntropy_analyzeCompare]; norm_num, by norm_num, by norm_num,
    by norm_num, by norm_num, by norm_num⟩ <;>
    norm_num [planExecution, planLoop, selectNextAgent, getEligibleCapabilities, exploit,
      explore, defaultOrchestrator, initializeRouting, defaultPolicy, agentCapabilityValues,
      initialContext, halfStream, List.filter, calcEntropy_analyzeCompare, min_def,
      calculateUtility, computeCapabilityMatch, estimateCost, shouldTerminate,
      projectNextContext, generateFallbacks, identifyDependencies, generateRoleName, jsIndex,
      roleOptions, emptyPlan]

/-- Unfolding a false `shouldTerminate`: none of the three stop conditions
holds. -/
theorem shouldTerminate_false (context : ExecutionContext) (plan : DynamicExecutionPlan)
    (h : shouldTerminate context plan = false) :
    plan.estimatedCost < context.budget * 0.9 ∧ plan.stages.length < 5 ∧
      ¬(context.entropy < 0.3 ∧ plan.stages.length ≥ 1) := by
  rw [shouldTerminate] at h
  split_ifs at h with h1 h2 h3
  exact ⟨lt_of_not_ge h1, by omega, h3⟩

/-- The stage loop never returns more than `max(start, 5)` stages: each
iteration appends one stage and `shouldTerminate` fires at five. -/
theorem planLoop_length (o : DynamicOrchestrator) (rand : ℕ → ℚ) :
    ∀ (fuel stage k : ℕ) (context : ExecutionContext) (plan : DynamicExecutionPlan)
      (p : DynamicExecutionPlan) (k2 : ℕ),
      planLoop o rand fuel stage k context plan = some (p, k2) →
      p.stages.length ≤ plan.stages.length + fuel ∧
        (plan.stages.length ≤ 4 → p.stages.length ≤ 5) := by
  intro fuel
  induction fuel with
  | zero =>
    intro stage k context plan p k2 h
    rw [planLoop] at h
    simp only [Option.some.injEq, Prod.mk.injEq] at h
    obtain ⟨rfl, rfl⟩ := h
    exact ⟨by omega, fun h4 => by omega⟩
  | succ m ih =>
    intro stage k context plan p k2 h
    rw [planLoop] at h
    split at h
    · exact absurd h (by simp)
    · rename_i sel k3 heq
      dsimp only at h
      split at h
      · rename_i hterm
        simp only [Option.some.injEq, Prod.mk.injEq] at h
        obtain ⟨rfl, rfl⟩ := h
        simp only [List.length_append, List.length_cons, List.length_nil]
        exact ⟨by omega, fun h4 => by omega⟩
      · rename_i hterm
        have hfalse : shouldTerminate context
            { plan with
              stages := plan.stages ++
                [{ stageId := stage, agent := sel,
                   dependencies := identifyDependencies plan.stages,
                   condition := createExecutionCondition }]
              estimatedCost := plan.estimatedCost + sel.estimatedCost } = false := by
          revert hterm
          cases shouldTerminate context _ <;> simp
        obtain ⟨hf1, hf2, hf3⟩ := shouldTerminate_false _ _ hfalse
        have hrec := ih (stage + 1) k3 _ _ p k2 h
        simp only [List.length_append, List.length_cons, List.length_nil] at hf2 hrec
        exact ⟨by omega, fun h4 => hrec.2 (by omega)⟩

/-- A JavaScript index in range yields an element. -/
theorem jsIndex_exists {α : Type} (l : List α) (i : ℤ) (h0 : 0 ≤ i)
    (h1 : i.toNat < l.length) : ∃ a, jsIndex l i = some a := by
  rw [jsIndex, if_neg (not_lt.mpr h0)]
  exact ⟨_, List.get?_eq_get h1⟩

/-- On a fresh orchestrator with every capability available and budget over
1000, `selectNextAgent` succeeds (whatever draw falls in [0,1)) and its
selection costs the learned average 1000. -/
theorem selectNextAgent_default (context : ExecutionContext) (rand : ℕ → ℚ) (k : ℕ)
    (hrand : ∀ j, 0 ≤ rand j ∧ rand j < 1)
    (hav : context.availableAgents = agentCapabilityValues) (hb : 1000 < context.budget) :
    ∃ sel k2, selectNextAgent defaultOrchestrator context rand k = (some sel, k2) ∧
      sel.estimatedCost = 1000 := by
  have hcand : getEligibleCapabilities defaultOrchestrator context = agentCapabilityValues := by
    simp [getEligibleCapabilities, hav, agentCapabilityValues, defaultOrchestrator,
      initializeRouting, hb]
  simp only [selectNextAgent]
  rw [hcand]
  by_cases hc : rand k < defaultOrchestrator.policy.explorationRate
  · rw [if_pos hc]
    obtain ⟨hr0, hr1⟩ := hrand (k + 1)
    have hfl0 : 0 ≤ ⌊rand (k + 1) * ((agentCapabilityValues.length : ℕ) : ℚ)⌋ := by
      apply Int.le_floor.mpr
      push_cast
      have : (0 : ℚ) ≤ ((agentCapabilityValues.length : ℕ) : ℚ) := by positivity
      exact mul_nonneg hr0 this
    have hfl5 : ⌊rand (k + 1) * ((agentCapabilityValues.length : ℕ) : ℚ)⌋ <
        agentCapabilityValues.length := by
      apply Int.floor_lt.mpr
      push_cast
      have hlp : (0 : ℚ) < ((agentCapabilityValues.length : ℕ) : ℚ) := by
        norm_num [agentCapabilityValues]
      calc rand (k + 1) * ((agentCapabilityValues.length : ℕ) : ℚ)
          < 1 * ((agentCapabilityValues.length : ℕ) : ℚ) :=
            mul_lt_mul_of_pos_right hr1 hlp
        _ = _ := one_mul _
    have htn : (⌊rand (k + 1) * ((agentCapabilityValues.length : ℕ) : ℚ)⌋).toNat <
        agentCapabilityValues.length := by omega
    obtain ⟨cap, hcap⟩ := jsIndex_exists agentCapabilityValues _ hfl0 htn
    simp only [explore]
    rw [hcap]
    exact ⟨_, _, rfl, rfl⟩
  · rw [if_neg hc]
    exact ⟨_, _, rfl, rfl⟩

/-- The plan loop on a fresh orchestrator with ample budget: every stage
costs 1000, the projected budget decrements accordingly, and the loop
returns a plan with between one and five stages (fuel permitting). -/
theorem planLoop_default (rand : ℕ → ℚ) (hrand : ∀ j, 0 ≤ rand j ∧ rand j < 1) :
    ∀ (fuel stage k : ℕ) (context : ExecutionContext) (plan : DynamicExecutionPlan),
      context.availableAgents = agentCapabilityValues →
      context.budget = 100000 - 1000 * (plan.stages.length : ℚ) →
      plan.estimatedCost = 1000 * (plan.stages.length : ℚ) →
      (∀ st ∈ plan.stages, st.agent.estimatedCost = 1000) →
      plan.stages.length + fuel ≤ 5 →
      ∃ p k2, planLoop defaultOrchestrator rand fuel stage k context plan = some (p, k2) ∧
        p.estimatedCost = 1000 * (p.stages.length : ℚ) ∧
        (∀ st ∈ p.stages, st.agent.estimatedCost = 1000) ∧
        p.stages.length ≤ 5 ∧ plan.stages.length ≤ p.stages.length ∧
        (1 ≤ fuel → plan.stages.length + 1 ≤ p.stages.length) := by
  intro fuel
  induction fuel with
  | zero =>
    intro stage k context plan hav hbud hcost hst hfuel
    exact ⟨plan, k, rfl, hcost, hst, by omega, le_refl _, by omega⟩
  | succ m ih =>
    intro stage k context plan hav hbud hcost hst hfuel
    have hlen4 : plan.stages.length ≤ 4 := by omega
    have hbpos : 1000 < context.budget := by
      rw [hbud]
      have hc4 : (plan.stages.length : ℚ) ≤ 4 := by exact_mod_cast hlen4
      linarith
    obtain ⟨sel, k3, hsel, hsc⟩ := selectNextAgent_default context rand k hrand hav hbpos
    rw [planLoop, hsel]
    dsimp only
    by_cases hterm : shouldTerminate context
        { plan with
          stages := plan.stages ++
            [{ stageId := stage, agent := sel,
               dependencies := identifyDependencies plan.stages,
               condition := createExecutionCondition }]
          estimatedCost := plan.estimatedCost + sel.estimatedCost } = true
    · rw [if_pos hterm]
      refine ⟨_, k3, rfl, ?_, ?_, ?_, ?_, ?_⟩
      · simp only [List.length_append, List.length_cons, List.length_nil]
        rw [hcost, hsc]
        push_cast
        ring
      · intro st hstm
        rcases List.mem_append.mp hstm with hin | hin
        · exact hst st hin
        · rcases List.mem_singleton.mp hin with rfl
          exact hsc
      · simp only [List.length_append, List.length_cons, List.length_nil]
        omega
      · simp only [List.length_append, List.length_cons, List.length_nil]
        omega
      · intro _
        simp only [List.length_append, List.length_cons, List.length_nil]
        omega
    · rw [if_neg hterm]
      have hav2 : (projectNextContext context sel).availableAgents = agentCapabilityValues := by
        simp [projectNextContext, hav]
      have hbud2 : (projectNextContext context sel).budget =
          100000 - 1000 * ((plan.stages.length + 1 : ℕ) : ℚ) := by
        simp only [projectNextContext]
        rw [hbud, hsc]
        push_cast
        ring
      obtain ⟨p, k2, hp, hpc, hps, hp5, hpge, _⟩ := ih (stage + 1) k3 (projectNextContext context sel)
        { plan with
          stages := plan.stages ++
            [{ stageId := stage, agent := sel,
               dependencies := identifyDependencies plan.stages,
               condition := createExecutionCondition }]
          estimatedCost := plan.estimatedCost + sel.estimatedCost }
        hav2
        (by
          simp only [List.length_append, List.length_cons, List.length_nil]
          rw [hbud2])
        (by
          simp only [List.length_append, List.length_cons, List.length_nil]
          rw [hcost, hsc]
          push_cast
          ring)
        (by
          intro st hstm
          rcases List.mem_append.mp hstm with hin | hin
          · exact hst st hin
          · rcases List.mem_singleton.mp hin with rfl
            exact hsc)
        (by
          simp only [List.length_append, List.length_cons, List.length_nil]
          omega)
      refine ⟨p, k2, hp, hpc, hps, hp5, ?_, ?_⟩
      · simp only [List.length_append, List.length_cons, List.length_nil] at hpge
        omega
      · intro _
        simp only [List.length_append, List.length_cons, List.length_nil] at hpge
        omega

/-- C4 (amended).  The code stops the stage loop when the cumulative cost
reaches 90% of the *remaining* context budget (decremented stage by stage),
when the stage count reaches `maxAgents` (the loop bound) or the hardcoded
constant 5 inside `shouldTerminate`, or when entropy is below 0.3 with at
least one stage planned.  Hence every returned plan has at most
`min maxAgents 5` stages; and the claimed scenario holds: with maxAgents 5
and budget 100000 on a fresh orchestrator the plan has 1–5 stages, each
costing the learned 1000, and its estimated cost stays within 0.9·budget
plus the final stage's cost. -/
theorem planExecution_stage_budget :
    (∀ (o : DynamicOrchestrator) (prompt : String) (maxAgents : ℕ) (budget : ℚ)
        (rand : ℕ → ℚ) (k : ℕ) (p : DynamicExecutionPlan),
      planExecution o prompt maxAgents budget rand k = some p →
      p.stages.length ≤ min maxAgents 5) ∧
    (∀ (prompt : String) (rand : ℕ → ℚ), (∀ j, 0 ≤ rand j ∧ rand j < 1) →
      ∃ p, planExecution defaultOrchestrator prompt 5 100000 rand 0 = some p ∧
        1 ≤ p.stages.length ∧ p.stages.length ≤ 5 ∧
        (∀ st ∈ p.stages, st.agent.estimatedCost = 1000) ∧
        p.estimatedCost = 1000 * (p.stages.length : ℚ) ∧
        p.estimatedCost ≤ 0.9 * 100000 + 1000) := by
  constructor
  · intro o prompt maxAgents budget rand k p h
    rw [planExecution] at h
    split at h
    · exact absurd h (by simp)
    · rename_i plan k2 heq
      simp only [Option.some.injEq] at h
      obtain rfl := h.symm
      have hlen := planLoop_length o rand maxAgents 0 k _ _ plan k2 heq
      simp only [emptyPlan, List.length_nil] at hlen
      have h1 := hlen.1
      have h2 := hlen.2 (by omega)
      simp only []
      omega
  · intro prompt rand hrand
    obtain ⟨q, k2, hq, hqc, hqs, hq5, _, hq1⟩ :=
      planLoop_default rand hrand 5 0 0 (initialContext prompt 100000) emptyPlan rfl
        (by norm_num [initialContext, emptyPlan])
        (by norm_num [emptyPlan])
        (by intro st hst; simp [emptyPlan] at hst)
        (by simp [emptyPlan])
    refine ⟨{ q with fallbackStrategies := generateFallbacks q }, ?_, ?_, ?_, ?_, ?_, ?_⟩
    · rw [planExecution, hq]
    · simpa [emptyPlan] using hq1 (by norm_num)
    · exact hq5
    · exact hqs
    · exact hqc
    · rw [hqc]
      have hc5 : (q.stages.length : ℚ) ≤ 5 := by exact_mod_cast hq5
      linarith

/-- C4 witness: both halves instantiated on the constant ½ stream — the
scenario run at (5, 100000), and the stage bound applied to that same
returned plan. -/
theorem planExecution_stage_budget_witness :
    (∀ j, 0 ≤ halfStream j ∧ halfStream j < 1) ∧
      (∃ p, planExecution defaultOrchestrator "plan" 5 100000 halfStream 0 = some p ∧
        1 ≤ p.stages.length ∧ p.stages.length ≤ 5 ∧
        (∀ st ∈ p.stages, st.agent.estimatedCost = 1000) ∧
        p.estimatedCost = 1000 * (p.stages.length : ℚ) ∧
        p.estimatedCost ≤ 0.9 * 100000 + 1000) ∧
      (∃ p, planExecution defaultOrchestrator "plan" 5 100000 halfStream 0 = some p ∧
        p.stages.length ≤ min 5 5) := by
  have hrand : ∀ j, 0 ≤ halfStream j ∧ halfStream j < 1 := by
    intro j
    constructor <;> norm_num [halfStream]
  obtain ⟨p, hp, hrest⟩ := planExecution_stage_budget.2 "plan" halfStream hrand
  exact ⟨hrand, ⟨p, hp, hrest⟩,
    ⟨p, hp, planExecution_stage_budget.1 defaultOrchestrator "plan" 5 100000 halfStream 0 p hp⟩⟩

end GeminiNexus
